import Mathlib

/-!
Verification of the `ascii-banner` animation engine
(`src/scripts/ascii-banner.ts`).

The TypeScript class `AsciiBanner` is shallowly embedded as a pure state
machine.  JavaScript numbers are modelled over an arbitrary
`LinearOrderedField α` (instantiated with `ℚ` for executable witnesses and
with `ℝ` where the source calls `Math.sin` / `Math.sqrt`, which are passed
in as function parameters `sin` / `sqrt`).  DOM side effects (canvas
sizing, drawing) are dropped; everything that feeds back into the state
(cells, morph bookkeeping, cycle scheduling, pointer fields) is kept.
-/

set_option maxHeartbeats 1000000
set_option maxRecDepth 4000
set_option linter.unusedSectionVars false

namespace AsciiBanner

/-- `FONT_SIZE = 14` from the source. -/
def FONT_SIZE : ℕ := 14

/-- `LINE_HEIGHT = 18` from the source. -/
def LINE_HEIGHT : ℕ := 18

/-- The blank glyph `' '` (code point 32): what the source writes as a
space character literal. -/
def blankChar : Char := Char.ofNat 32

/-- The newline separator (code point 10): the `'\n'` used by
`art.split('\n')`. -/
def newlineChar : Char := Char.ofNat 10

/-- `GLITCH_CHARS = "!@#$%^&*()_+-=[]{}|;:',.<>?/~`0123456789"` from the
source, as a list of its 40 code points. -/
def GLITCH_CHARS : List Char :=
  "!@#$%^&*()_+-=[]\x7b\x7d|;:\x27,.<>?/~\x600123456789".toList

/-- Helper for `splitLines`: splits a character list at each newline,
keeping empty segments, like JavaScript `String.prototype.split('\n')`. -/
def splitAux : List Char → List Char → List (List Char)
  | [], acc => [acc.reverse]
  | c :: rest, acc =>
    if c = newlineChar then acc.reverse :: splitAux rest []
    else splitAux rest (c :: acc)

/-- `art.split('\n')` followed by `Array.from(line)` on each line: the
lines of a text-art block as lists of code points.  The source performs
these two steps wherever it consumes an art string (`initCanvas`,
`buildGrid`, `startMorph`). -/
def splitLines (s : String) : List (List Char) :=
  splitAux s.toList []

/-- The `Cell` interface from the source: current glyph, grid coordinates,
rest position `(rx, ry)`, current position `(px, py)`, velocity
`(vx, vy)`. -/
structure Cell (α : Type) where
  char : Char
  row : ℕ
  col : ℕ
  rx : α
  ry : α
  px : α
  py : α
  vx : α
  vy : α
deriving Repr, DecidableEq

/-- The `morph` field of the class: `{active, startTime, duration,
fromSnap, toLines, thresholds, onComplete}`.  The only completion callback
ever installed is the closure created in `cycle`, which captures
`nextIndex`; `onComplete` is therefore defunctionalised to the captured
index. -/
structure MorphState (α : Type) where
  active : Bool
  startTime : α
  duration : α
  fromSnap : List (Cell α)
  toLines : List (List Char)
  thresholds : List α
  onComplete : Option ℕ
deriving DecidableEq

/-- The mutable instance fields of the `AsciiBanner` class that feed back
into behaviour, together with the browser's timeout queue for this
instance.  `cycleTimer` is the pending cycle timeout whose id the field
`this.cycleTimer` currently tracks (`none` once it fired, was cleared, or
none was armed): only this one can be cancelled by
`clearTimeout(this.cycleTimer)`.  `scheduleCycle` overwrites the tracked
id without `clearTimeout`, so a still-pending tracked timeout can be
orphaned: `staleTimers` counts the pending cycle timeouts whose ids are no
longer tracked and that can therefore no longer be cancelled.
`initialPending` is the initial-delay timeout armed at the end of
`connectedCallback`, whose id is discarded on the spot — it too can never
be cancelled before firing. -/
structure BannerState (α : Type) where
  cells : List (Cell α)
  fontArts : List String
  charWidth : α
  morph : MorphState α
  currentTextIndex : ℕ
  nextPause : ℕ
  cycleTimer : Option ℕ
  staleTimers : ℕ
  initialPending : Bool
  isMorphing : Bool
  mouseX : α
  mouseY : α
  hovering : Bool
deriving DecidableEq

variable {α : Type} [LinearOrderedField α]

/-- `buildGrid(art)`: one cell per character of each line of the split
art, with rest position `(col * charWidth, row * LINE_HEIGHT + FONT_SIZE)`
and current position initialised to rest with zero velocity. -/
def buildGrid (charWidth : α) (art : String) : List (Cell α) :=
  ((splitLines art).enum.map (fun rl =>
    rl.2.enum.map (fun cc =>
      { char := cc.2, row := rl.1, col := cc.1,
        rx := (cc.1 : α) * charWidth,
        ry := (rl.1 : α) * (LINE_HEIGHT : α) + (FONT_SIZE : α),
        px := (cc.1 : α) * charWidth,
        py := (rl.1 : α) * (LINE_HEIGHT : α) + (FONT_SIZE : α),
        vx := 0, vy := 0 }))).flatten

/-- The per-cell threshold formula from `startMorph`:
`(Math.sin(cell.row * 13.37 + cell.col * 7.13) * 0.5 + 0.5) * 0.7 + 0.15`. -/
def thresholdOf (sin : α → α) (row col : ℕ) : α :=
  (sin ((row : α) * 13.37 + (col : α) * 7.13) * 0.5 + 0.5) * 0.7 + 0.15

/-- `this.morph.thresholds = this.cells.map(cell => ...)` from
`startMorph`. -/
def mkThresholds (sin : α → α) (cells : List (Cell α)) : List α :=
  cells.map (fun c => thresholdOf sin c.row c.col)

/-- `startMorph(toArt, onComplete)`: no-op while a morph is active;
otherwise snapshots the cells, splits the target art, computes the
thresholds and activates the morph at the current time.  `duration` is
never reassigned by the source, so it is carried over. -/
def startMorph (sin : α → α) (toArt : String) (onComplete : Option ℕ)
    (now : α) (st : BannerState α) : BannerState α :=
  if st.morph.active then st
  else
    { st with morph :=
      { active := true
        startTime := now
        duration := st.morph.duration
        fromSnap := st.cells
        toLines := splitLines toArt
        thresholds := mkThresholds sin st.cells
        onComplete := onComplete } }

/-- `scheduleCycle()`: `this.cycleTimer = window.setTimeout(...)` arms a
timeout for `nextPause` milliseconds and overwrites the tracked id
without `clearTimeout` — if the previously tracked timeout is still
pending it stays pending but becomes uncancellable (stale).  Then
`nextPause = Math.min(nextPause + PAUSE_STEP, PAUSE_MAX)` with
`PAUSE_STEP = 1000`, `PAUSE_MAX = 10000`. -/
def scheduleCycle (st : BannerState α) : BannerState α :=
  { st with
    staleTimers := if st.cycleTimer.isSome then st.staleTimers + 1 else st.staleTimers
    cycleTimer := some st.nextPause
    nextPause := min (st.nextPause + 1000) 10000 }

/-- `cycle()`: returns immediately when morphing or hovering; otherwise
sets `isMorphing`, picks the next art round-robin and starts the morph
with the completion closure capturing `nextIndex`.  (`fontArts` is
nonempty whenever `cycle` is reachable, so the `getD` default is never
consulted on the source's own paths.) -/
def cycle (sin : α → α) (now : α) (st : BannerState α) : BannerState α :=
  if st.isMorphing || st.hovering then st
  else
    let nextIndex := (st.currentTextIndex + 1) % st.fontArts.length
    startMorph sin (st.fontArts.getD nextIndex "") (some nextIndex) now
      { st with isMorphing := true }

/-- The physics loop body of `render`, per cell: repulsion measured from
the pointer to the rest position (`REPEL_RADIUS = 80`,
`REPEL_FORCE = 3`), then the spring impulse (`SPRING_K = 0.15`), then
damping (`DAMPING = 0.7`), then one explicit integration step.
`Math.sqrt` is the `sqrt` parameter. -/
def physStep (sqrt : α → α) (mouseX mouseY : α) (c : Cell α) : Cell α :=
  let dx := c.rx - mouseX
  let dy := c.ry - mouseY
  let dist := sqrt (dx * dx + dy * dy)
  let vx1 := if dist < 80 ∧ 0 < dist
    then c.vx + dx / dist * (3 * (1 - dist / 80)) else c.vx
  let vy1 := if dist < 80 ∧ 0 < dist
    then c.vy + dy / dist * (3 * (1 - dist / 80)) else c.vy
  let vx2 := vx1 + (c.rx - c.px) * 0.15
  let vy2 := vy1 + (c.ry - c.py) * 0.15
  let vx3 := vx2 * 0.7
  let vy3 := vy2 * 0.7
  { c with vx := vx3, vy := vy3, px := c.px + vx3, py := c.py + vy3 }

/-- `this.morph.fromSnap[i]?.char ?? ' '` from the morph update. -/
def snapChar (fromSnap : List (Cell α)) (i : ℕ) : Char :=
  ((fromSnap[i]?).map Cell.char).getD blankChar

/-- `this.morph.toLines[cell.row]?.[cell.col] ?? ' '` from the morph
update. -/
def targetChar (toLines : List (List Char)) (row col : ℕ) : Char :=
  ((toLines[row]?).bind (fun ln => ln[col]?)).getD blankChar

/-- `GLITCH_CHARS[r]` for the random draw
`Math.floor(Math.random() * GLITCH_CHARS.length)`; the draw itself is the
oracle argument `r`. -/
def glitchAt (r : ℕ) : Char :=
  GLITCH_CHARS.getD r blankChar

/-- The per-cell glyph choice of the morph update.  A `none` threshold
models the out-of-bounds JavaScript read `thresholds[i] = undefined`, for
which both numeric comparisons are false and the `else` branch runs. -/
def morphCellChar (threshold? : Option α) (fromChar toChar randChar : Char)
    (progress : α) : Char :=
  match threshold? with
  | none => fromChar
  | some threshold =>
    if threshold ≤ progress then toChar
    else if threshold * 0.3 < progress then randChar
    else fromChar

/-- The body of the completion closure installed by `cycle`:
`initCanvas(fontArts[nextIndex])` (which rebuilds `cells` via
`buildGrid`), `currentTextIndex = nextIndex`, `isMorphing = false`,
`scheduleCycle()`. -/
def runOnComplete (st : BannerState α) : BannerState α :=
  match st.morph.onComplete with
  | none => st
  | some nextIndex =>
    scheduleCycle
      { st with
        cells := buildGrid st.charWidth (st.fontArts.getD nextIndex "")
        currentTextIndex := nextIndex
        isMorphing := false }

/-- The `this.cells.forEach((cell, i) => ...)` loop of the morph update:
every cell's glyph is rewritten according to its threshold, the progress,
the pre-morph snapshot and the target lines. -/
def morphCells (rand : ℕ → ℕ) (progress : α) (st : BannerState α) :
    List (Cell α) :=
  st.cells.enum.map (fun ic =>
    { ic.2 with char :=
        (morphCellChar (st.morph.thresholds[ic.1]?)
          (snapChar st.morph.fromSnap ic.1)
          (targetChar st.morph.toLines ic.2.row ic.2.col)
          (glitchAt (rand ic.1)) progress) })

/-- The morph-update section of `render`: when a morph is active, compute
`progress = Math.min((timestamp - startTime) / duration, 1)`, rewrite
every cell's glyph, and on `progress >= 1` clear `active` and invoke the
completion callback.  `rand i` is the glitch-alphabet index drawn for the
`i`-th cell on this frame. -/
def morphPhase (rand : ℕ → ℕ) (now : α) (st : BannerState α) :
    BannerState α :=
  if st.morph.active then
    let progress := min ((now - st.morph.startTime) / st.morph.duration) 1
    let st1 := { st with cells := morphCells rand progress st }
    if (1 : α) ≤ progress then
      runOnComplete { st1 with morph := { st1.morph with active := false } }
    else st1
  else st

/-- One `render(timestamp)` invocation: morph update first, then the
physics step for every cell (the draw calls have no feedback into the
state and are dropped). -/
def render (sqrt : α → α) (rand : ℕ → ℕ) (now : α) (st : BannerState α) :
    BannerState α :=
  let st1 := morphPhase rand now st
  { st1 with cells := st1.cells.map (physStep sqrt st1.mouseX st1.mouseY) }

/-- The initial `morph` object of the class. -/
def initMorph : MorphState α :=
  { active := false, startTime := 0, duration := 600, fromSnap := []
    toLines := [], thresholds := [], onComplete := none }

/-- The state right after a successful `connectedCallback`:
`initCanvas(fontArts[0])` has built the grid, all other fields carry
their initialisers (`nextPause = 2000`, no cycle timer armed yet, pointer
at the far-away sentinel `-9999`), and the initial-delay timeout has just
been armed with its id discarded. -/
def initState (charWidth : α) (fontArts : List String) (art0 : String) :
    BannerState α :=
  { cells := buildGrid charWidth art0
    fontArts := fontArts
    charWidth := charWidth
    morph := initMorph
    currentTextIndex := 0
    nextPause := 2000
    cycleTimer := none
    staleTimers := 0
    initialPending := true
    isMorphing := false
    mouseX := -9999
    mouseY := -9999
    hovering := false }

/-- `connectedCallback` up to its first frame, on already-parsed style
data: bail out silently when the canvas is missing or `arts` is empty;
otherwise select the style `arts[fontIndex]` and run
`initCanvas(fontArts[0])`.  When the selected style has no blocks,
`fontArts[0]` is `undefined` and `initCanvas` throws a `TypeError` at
`art.split('\n')`, modelled as `Except.error`. -/
def connectedCallback (charWidth : α) (arts : List (List String))
    (hasCanvas : Bool) (fontIndex : ℕ) :
    Except Unit (Option (BannerState α)) :=
  if hasCanvas = false ∨ arts.length = 0 then .ok none
  else
    match (arts.getD fontIndex [])[0]? with
    | none => .error ()
    | some art0 => .ok (some (initState charWidth (arts.getD fontIndex []) art0))

/-- The asynchronous callbacks that mutate the instance: a frame, the
tracked cycle timeout firing, a stale (orphaned) cycle timeout firing,
the initial-delay timeout firing (which just calls `scheduleCycle`), and
the three pointer listeners.  `mouseMove` carries the already-scaled
grid-space coordinates. -/
inductive Event (α : Type) where
  | frame (now : α) (rand : ℕ → ℕ)
  | cycleFire (now : α)
  | staleCycleFire (now : α)
  | initialFire
  | mouseEnter
  | mouseMove (x y : α)
  | mouseLeave

/-- One callback dispatch.  The tracked cycle timeout only fires while
`cycleTimer` holds it, a stale one only while `staleTimers` counts it,
and the initial-delay timeout only while it is pending; firing consumes
the timeout (all three run `cycle()` resp. `scheduleCycle()`).
`mouseEnter`'s `clearTimeout(this.cycleTimer)` cancels only the tracked
timeout: stale cycle timeouts and the initial-delay timeout, whose ids
are unavailable, survive hover entry. -/
def step (sqrt sin : α → α) (e : Event α) (st : BannerState α) :
    BannerState α :=
  match e with
  | .frame now rand => render sqrt rand now st
  | .cycleFire now =>
    match st.cycleTimer with
    | none => st
    | some _ => cycle sin now { st with cycleTimer := none }
  | .staleCycleFire now =>
    if st.staleTimers = 0 then st
    else cycle sin now { st with staleTimers := st.staleTimers - 1 }
  | .initialFire =>
    if st.initialPending then scheduleCycle { st with initialPending := false }
    else st
  | .mouseEnter => { st with hovering := true, cycleTimer := none }
  | .mouseMove x y => { st with mouseX := x, mouseY := y }
  | .mouseLeave =>
    let st1 := { st with hovering := false, mouseX := -9999, mouseY := -9999 }
    if st1.isMorphing then st1 else scheduleCycle st1

/-! ### Generic lemmas about the embedding -/

/-- The physics step never changes the glyph. -/
lemma physStep_char (sqrt : α → α) (mx my : α) (c : Cell α) :
    (physStep sqrt mx my c).char = c.char := rfl

/-- The physics step never changes the row. -/
lemma physStep_row (sqrt : α → α) (mx my : α) (c : Cell α) :
    (physStep sqrt mx my c).row = c.row := rfl

/-- The physics step never changes the column. -/
lemma physStep_col (sqrt : α → α) (mx my : α) (c : Cell α) :
    (physStep sqrt mx my c).col = c.col := rfl

/-- `buildGrid` makes one cell per character present in the art: its size
is the sum of the split lines' lengths. -/
lemma buildGrid_length (charWidth : α) (art : String) :
    (buildGrid charWidth art).length = ((splitLines art).map List.length).sum := by
  rw [buildGrid, List.length_flatten, List.map_map]
  have h1 : ∀ L : List (List Char), ∀ f : ℕ × List Char → List (Cell α),
      (∀ rl, (f rl).length = rl.2.length) →
      (L.enum.map (List.length ∘ f)).sum = (L.map List.length).sum := by
    intro L f hf
    have : (List.length ∘ f) = (List.length ∘ (Prod.snd : ℕ × List Char → List Char)) := by
      funext rl; simp [hf rl]
    rw [this, ← List.map_map _ Prod.snd, List.enum_map_snd]
  exact h1 _ _ (fun rl => by simp)

/-- Every cell built by `buildGrid` records a character that is really at
`(row, col)` in the split art; in particular no cell sits beyond its
line's length. -/
lemma mem_buildGrid_spec {charWidth : α} {art : String} {c : Cell α}
    (hc : c ∈ buildGrid charWidth art) :
    ∃ ln, (splitLines art)[c.row]? = some ln ∧ ln[c.col]? = some c.char := by
  rw [buildGrid, List.mem_flatten] at hc
  obtain ⟨l, hl, hcl⟩ := hc
  rw [List.mem_map] at hl
  obtain ⟨rl, hrl, rfl⟩ := hl
  rw [List.mem_map] at hcl
  obtain ⟨cc, hcc, rfl⟩ := hcl
  refine ⟨rl.2, ?_, ?_⟩
  · simpa using List.mem_enum_iff_getElem?.mp hrl
  · simpa using List.mem_enum_iff_getElem?.mp hcc

/-- Every cell built by `buildGrid` starts at rest with zero velocity. -/
lemma mem_buildGrid_rest {charWidth : α} {art : String} {c : Cell α}
    (hc : c ∈ buildGrid charWidth art) :
    c.px = c.rx ∧ c.py = c.ry ∧ c.vx = 0 ∧ c.vy = 0 := by
  rw [buildGrid, List.mem_flatten] at hc
  obtain ⟨l, hl, hcl⟩ := hc
  rw [List.mem_map] at hl
  obtain ⟨rl, _, rfl⟩ := hl
  rw [List.mem_map] at hcl
  obtain ⟨cc, _, rfl⟩ := hcl
  exact ⟨rfl, rfl, rfl, rfl⟩

/-! ### C1 -/

/-- C1 (counterexample): the claim says the grid has
rows × max-line-length cells for every ArtBlock, ragged ones included.
For the ragged block `"AB\nC"` (2 lines, maximum length 2) `buildGrid`
produces only 3 cells, not 2 × 2 = 4: no blank-padded cells exist beyond
a line's actual length. -/
theorem C1_counterexample :
    (splitLines "AB\nC").map List.length = [2, 1] ∧
    (buildGrid (1 : ℚ) "AB\nC").length = 3 ∧
    (buildGrid (1 : ℚ) "AB\nC").length ≠ 2 * 2 := by decide

/-- C1 (amended): the grid built from an ArtBlock contains exactly one
cell per character actually present in each line — Σ line lengths cells —
and every cell's glyph is the art's character at its `(row, col)`; no
cell exists at a column beyond its line's actual length. -/
theorem C1_grid_cells (charWidth : α) (art : String) :
    (buildGrid charWidth art).length = ((splitLines art).map List.length).sum ∧
    ∀ c ∈ buildGrid charWidth art,
      ∃ ln, (splitLines art)[c.row]? = some ln ∧ ln[c.col]? = some c.char :=
  ⟨buildGrid_length charWidth art, fun _ hc => mem_buildGrid_spec hc⟩

/-- C1 witness: the amended statement instantiated on the ragged block
`"AB\nC"` and its first cell. -/
theorem C1_grid_cells_witness :
    (buildGrid (1 : ℚ) "AB\nC").length = ((splitLines "AB\nC").map List.length).sum ∧
    (∃ ln, (splitLines "AB\nC")[(0 : ℕ)]? = some ln ∧ ln[(0 : ℕ)]? = some (Char.ofNat 65)) := by
  obtain ⟨h1, h2⟩ := C1_grid_cells (1 : ℚ) "AB\nC"
  refine ⟨h1, ?_⟩
  have hlen : 0 < (buildGrid (1 : ℚ) "AB\nC").length := by decide
  have hc := h2 _ (List.get_mem _ 0 hlen)
  have hrow : ((buildGrid (1 : ℚ) "AB\nC").get ⟨0, hlen⟩).row = 0 := rfl
  have hcol : ((buildGrid (1 : ℚ) "AB\nC").get ⟨0, hlen⟩).col = 0 := rfl
  have hchar : ((buildGrid (1 : ℚ) "AB\nC").get ⟨0, hlen⟩).char = Char.ofNat 65 := rfl
  rw [hrow, hcol, hchar] at hc
  exact hc

/-! ### C4 -/

/-- `startMorph` never touches `nextPause`. -/
lemma startMorph_nextPause (sin : α → α) (toArt : String) (cb : Option ℕ)
    (now : α) (st : BannerState α) :
    (startMorph sin toArt cb now st).nextPause = st.nextPause := by
  rw [startMorph]; split <;> rfl

/-- `cycle` never touches `nextPause`. -/
lemma cycle_nextPause (sin : α → α) (now : α) (st : BannerState α) :
    (cycle sin now st).nextPause = st.nextPause := by
  rw [cycle]; split
  · rfl
  · rw [startMorph_nextPause]

/-- The completion callback either leaves `nextPause` alone or applies the
`scheduleCycle` increment. -/
lemma runOnComplete_nextPause_cases (st : BannerState α) :
    (runOnComplete st).nextPause = st.nextPause ∨
    (runOnComplete st).nextPause = min (st.nextPause + 1000) 10000 := by
  cases h : st.morph.onComplete with
  | none => left; simp [runOnComplete, h]
  | some i => right; simp [runOnComplete, h, scheduleCycle]

/-- The morph update either leaves `nextPause` alone or applies the
`scheduleCycle` increment (on completion). -/
lemma morphPhase_nextPause_cases (rand : ℕ → ℕ) (now : α) (st : BannerState α) :
    (morphPhase rand now st).nextPause = st.nextPause ∨
    (morphPhase rand now st).nextPause = min (st.nextPause + 1000) 10000 := by
  simp only [morphPhase]
  split_ifs with h1 h2
  · simpa using runOnComplete_nextPause_cases _
  · left; rfl
  · left; rfl

/-- A frame either leaves `nextPause` alone or applies the
`scheduleCycle` increment. -/
lemma render_nextPause_cases (sqrt : α → α) (rand : ℕ → ℕ) (now : α)
    (st : BannerState α) :
    (render sqrt rand now st).nextPause = st.nextPause ∨
    (render sqrt rand now st).nextPause = min (st.nextPause + 1000) 10000 :=
  morphPhase_nextPause_cases rand now st

/-- Every callback either leaves `nextPause` alone or applies the
`scheduleCycle` increment: nothing ever resets it. -/
lemma step_nextPause_cases (sqrt sin : α → α) (e : Event α) (st : BannerState α) :
    (step sqrt sin e st).nextPause = st.nextPause ∨
    (step sqrt sin e st).nextPause = min (st.nextPause + 1000) 10000 := by
  cases e with
  | frame now rand => exact render_nextPause_cases sqrt rand now st
  | cycleFire now =>
    rw [step]
    cases st.cycleTimer with
    | none => left; rfl
    | some d => left; rw [cycle_nextPause]
  | staleCycleFire now =>
    rw [step]
    split
    · left; rfl
    · left; rw [cycle_nextPause]
  | initialFire =>
    rw [step]
    split
    · right; rfl
    · left; rfl
  | mouseEnter => left; rfl
  | mouseMove x y => left; rfl
  | mouseLeave =>
    rw [step]
    split
    · left; rfl
    · right; rfl

/-- The successive values of `nextPause`: `pauseAfter n` is its value
after `n` runs of `scheduleCycle`, starting from the field initialiser
`nextPause = 2000`.  The `n`-th armed pause is `pauseAfter (n - 1)`. -/
def pauseAfter : ℕ → ℕ
  | 0 => 2000
  | n + 1 => min (pauseAfter n + 1000) 10000

/-- Closed form of the pause recurrence. -/
lemma pauseAfter_closed (n : ℕ) : pauseAfter n = min (2000 + n * 1000) 10000 := by
  induction n with
  | zero => rfl
  | succ n ih => rw [pauseAfter, ih]; omega

/-- C4: with initial delay I = 2000, step S = 1000 and cap M = 10000, the
n-th pause armed by `scheduleCycle` equals min(I + (n−1)·S, M): each call
arms a timer for the current `nextPause` and then applies the capped
increment; iterating from the initial state realises exactly the
`pauseAfter` sequence; the sequence is non-decreasing; no event ever
resets or decreases `nextPause` (from any reachable value, i.e. any value
≤ the cap); and the first armed pause is the initial delay 2000. -/
theorem C4_pause_sequence :
    (∀ n : ℕ, 1 ≤ n → pauseAfter (n - 1) = min (2000 + (n - 1) * 1000) 10000) ∧
    (∀ st : BannerState α, (scheduleCycle st).cycleTimer = some st.nextPause ∧
      (scheduleCycle st).nextPause = min (st.nextPause + 1000) 10000) ∧
    (∀ (st0 : BannerState α) (n : ℕ), st0.nextPause = 2000 →
      (scheduleCycle^[n] st0).nextPause = pauseAfter n) ∧
    (∀ n : ℕ, pauseAfter n ≤ pauseAfter (n + 1)) ∧
    (∀ (sqrt sin : α → α) (e : Event α) (st : BannerState α),
      (step sqrt sin e st).nextPause = st.nextPause ∨
      (step sqrt sin e st).nextPause = min (st.nextPause + 1000) 10000) ∧
    (∀ (sqrt sin : α → α) (e : Event α) (st : BannerState α),
      st.nextPause ≤ 10000 →
      st.nextPause ≤ (step sqrt sin e st).nextPause ∧
      (step sqrt sin e st).nextPause ≤ 10000) ∧
    (∀ (cw : α) (arts : List String) (art0 : String),
      (initState cw arts art0).nextPause = 2000 ∧
      (scheduleCycle (initState cw arts art0)).cycleTimer = some 2000) := by
  refine ⟨?_, ?_, ?_, ?_, ?_, ?_, ?_⟩
  · intro n _; exact pauseAfter_closed (n - 1)
  · intro st; exact ⟨rfl, rfl⟩
  · intro st0 n h0
    induction n with
    | zero => simpa [pauseAfter] using h0
    | succ n ih => rw [Function.iterate_succ_apply', pauseAfter, ← ih]; rfl
  · intro n
    rw [pauseAfter_closed, pauseAfter_closed]
    omega
  · exact step_nextPause_cases
  · intro sqrt sin e st h
    rcases step_nextPause_cases sqrt sin e st with h1 | h1 <;> rw [h1] <;> omega
  · intro cw arts art0; exact ⟨rfl, rfl⟩

/-- C4 witness: the 12-th pause is capped at 10000; three iterated
schedules from the initial state yield `pauseAfter 3 = 5000`; the no-reset
and no-decrease conjuncts at a concrete event and state. -/
theorem C4_pause_sequence_witness :
    pauseAfter (12 - 1) = min (2000 + (12 - 1) * 1000) 10000 ∧
    pauseAfter 11 = 10000 ∧
    (scheduleCycle^[3] (initState (0 : ℚ) [] "")).nextPause = pauseAfter 3 ∧
    pauseAfter 3 = 5000 ∧
    ((initState (0 : ℚ) [] "").nextPause ≤
      (step (fun x => x) (fun x => x) Event.initialFire (initState (0 : ℚ) [] "")).nextPause) := by
  obtain ⟨h1, _, h3, _, _, h6, h7⟩ := @C4_pause_sequence ℚ _
  refine ⟨h1 12 (by decide), by decide, h3 _ 3 rfl, by decide, ?_⟩
  exact (h6 (fun x => x) (fun x => x) Event.initialFire (initState (0 : ℚ) [] "")
    (by rw [(h7 0 [] "").1]; decide)).1

/-! ### Projection lemmas for the state operations -/

@[simp] lemma scheduleCycle_cells (st : BannerState α) :
    (scheduleCycle st).cells = st.cells := rfl

@[simp] lemma scheduleCycle_morph (st : BannerState α) :
    (scheduleCycle st).morph = st.morph := rfl

@[simp] lemma scheduleCycle_isMorphing (st : BannerState α) :
    (scheduleCycle st).isMorphing = st.isMorphing := rfl

@[simp] lemma scheduleCycle_hovering (st : BannerState α) :
    (scheduleCycle st).hovering = st.hovering := rfl

@[simp] lemma scheduleCycle_mouseX (st : BannerState α) :
    (scheduleCycle st).mouseX = st.mouseX := rfl

@[simp] lemma scheduleCycle_mouseY (st : BannerState α) :
    (scheduleCycle st).mouseY = st.mouseY := rfl

@[simp] lemma scheduleCycle_currentTextIndex (st : BannerState α) :
    (scheduleCycle st).currentTextIndex = st.currentTextIndex := rfl

@[simp] lemma scheduleCycle_fontArts (st : BannerState α) :
    (scheduleCycle st).fontArts = st.fontArts := rfl

@[simp] lemma scheduleCycle_charWidth (st : BannerState α) :
    (scheduleCycle st).charWidth = st.charWidth := rfl

@[simp] lemma startMorph_isMorphing (sin : α → α) (toArt : String)
    (cb : Option ℕ) (now : α) (st : BannerState α) :
    (startMorph sin toArt cb now st).isMorphing = st.isMorphing := by
  rw [startMorph]; split <;> rfl

@[simp] lemma startMorph_hovering (sin : α → α) (toArt : String)
    (cb : Option ℕ) (now : α) (st : BannerState α) :
    (startMorph sin toArt cb now st).hovering = st.hovering := by
  rw [startMorph]; split <;> rfl

@[simp] lemma startMorph_cells (sin : α → α) (toArt : String)
    (cb : Option ℕ) (now : α) (st : BannerState α) :
    (startMorph sin toArt cb now st).cells = st.cells := by
  rw [startMorph]; split <;> rfl

@[simp] lemma startMorph_cycleTimer (sin : α → α) (toArt : String)
    (cb : Option ℕ) (now : α) (st : BannerState α) :
    (startMorph sin toArt cb now st).cycleTimer = st.cycleTimer := by
  rw [startMorph]; split <;> rfl

@[simp] lemma startMorph_currentTextIndex (sin : α → α) (toArt : String)
    (cb : Option ℕ) (now : α) (st : BannerState α) :
    (startMorph sin toArt cb now st).currentTextIndex = st.currentTextIndex := by
  rw [startMorph]; split <;> rfl

@[simp] lemma runOnComplete_morph (st : BannerState α) :
    (runOnComplete st).morph = st.morph := by
  cases h : st.morph.onComplete <;> simp [runOnComplete, h]

@[simp] lemma runOnComplete_mouseX (st : BannerState α) :
    (runOnComplete st).mouseX = st.mouseX := by
  cases h : st.morph.onComplete <;> simp [runOnComplete, h]

@[simp] lemma runOnComplete_mouseY (st : BannerState α) :
    (runOnComplete st).mouseY = st.mouseY := by
  cases h : st.morph.onComplete <;> simp [runOnComplete, h]

@[simp] lemma runOnComplete_hovering (st : BannerState α) :
    (runOnComplete st).hovering = st.hovering := by
  cases h : st.morph.onComplete <;> simp [runOnComplete, h]

@[simp] lemma runOnComplete_fontArts (st : BannerState α) :
    (runOnComplete st).fontArts = st.fontArts := by
  cases h : st.morph.onComplete <;> simp [runOnComplete, h]

@[simp] lemma runOnComplete_charWidth (st : BannerState α) :
    (runOnComplete st).charWidth = st.charWidth := by
  cases h : st.morph.onComplete <;> simp [runOnComplete, h]

/-- An inactive morph makes the morph update a no-op. -/
lemma morphPhase_not_active {st : BannerState α} (rand : ℕ → ℕ) (now : α)
    (h : st.morph.active = false) : morphPhase rand now st = st := by
  simp [morphPhase, h]

/-- An active morph whose progress has not yet reached 1 only rewrites
the glyphs. -/
lemma morphPhase_active_mid (rand : ℕ → ℕ) (now : α) (st : BannerState α)
    (h : st.morph.active = true)
    (hlt : ¬ (1 : α) ≤ min ((now - st.morph.startTime) / st.morph.duration) 1) :
    morphPhase rand now st =
      { st with cells :=
          morphCells rand (min ((now - st.morph.startTime) / st.morph.duration) 1) st } := by
  simp only [morphPhase]
  split_ifs
  rfl

/-- An active morph at progress ≥ 1 rewrites the glyphs, clears `active`
and runs the completion callback. -/
lemma morphPhase_active_done (rand : ℕ → ℕ) (now : α) (st : BannerState α)
    (h : st.morph.active = true)
    (hge : (1 : α) ≤ min ((now - st.morph.startTime) / st.morph.duration) 1) :
    morphPhase rand now st =
      runOnComplete
        { st with
          cells := morphCells rand (min ((now - st.morph.startTime) / st.morph.duration) 1) st
          morph := { st.morph with active := false } } := by
  simp only [morphPhase]
  split_ifs
  rfl

@[simp] lemma morphPhase_mouseX (rand : ℕ → ℕ) (now : α) (st : BannerState α) :
    (morphPhase rand now st).mouseX = st.mouseX := by
  simp only [morphPhase]; split_ifs <;> simp

@[simp] lemma morphPhase_mouseY (rand : ℕ → ℕ) (now : α) (st : BannerState α) :
    (morphPhase rand now st).mouseY = st.mouseY := by
  simp only [morphPhase]; split_ifs <;> simp

@[simp] lemma morphPhase_hovering (rand : ℕ → ℕ) (now : α) (st : BannerState α) :
    (morphPhase rand now st).hovering = st.hovering := by
  simp only [morphPhase]; split_ifs <;> simp

@[simp] lemma morphPhase_fontArts (rand : ℕ → ℕ) (now : α) (st : BannerState α) :
    (morphPhase rand now st).fontArts = st.fontArts := by
  simp only [morphPhase]; split_ifs <;> simp

@[simp] lemma morphPhase_charWidth (rand : ℕ → ℕ) (now : α) (st : BannerState α) :
    (morphPhase rand now st).charWidth = st.charWidth := by
  simp only [morphPhase]; split_ifs <;> simp

@[simp] lemma render_morph (sqrt : α → α) (rand : ℕ → ℕ) (now : α)
    (st : BannerState α) :
    (render sqrt rand now st).morph = (morphPhase rand now st).morph := rfl

@[simp] lemma render_isMorphing (sqrt : α → α) (rand : ℕ → ℕ) (now : α)
    (st : BannerState α) :
    (render sqrt rand now st).isMorphing = (morphPhase rand now st).isMorphing := rfl

@[simp] lemma render_hovering (sqrt : α → α) (rand : ℕ → ℕ) (now : α)
    (st : BannerState α) :
    (render sqrt rand now st).hovering = st.hovering := by
  simp [render]

@[simp] lemma render_cycleTimer (sqrt : α → α) (rand : ℕ → ℕ) (now : α)
    (st : BannerState α) :
    (render sqrt rand now st).cycleTimer = (morphPhase rand now st).cycleTimer := rfl

@[simp] lemma render_currentTextIndex (sqrt : α → α) (rand : ℕ → ℕ) (now : α)
    (st : BannerState α) :
    (render sqrt rand now st).currentTextIndex
      = (morphPhase rand now st).currentTextIndex := rfl

/-- The cells after a frame: the physics step applied to every
post-morph-update cell, with the pointer fields unchanged. -/
lemma render_cells (sqrt : α → α) (rand : ℕ → ℕ) (now : α)
    (st : BannerState α) :
    (render sqrt rand now st).cells
      = (morphPhase rand now st).cells.map (physStep sqrt st.mouseX st.mouseY) := by
  simp [render]

/-! ### C6 -/

/-- The `{ st with cycleTimer := none }` update is the identity when no
timer is pending. -/
lemma setTimer_none_eq {st : BannerState α} (h : st.cycleTimer = none) :
    ({ st with cycleTimer := none } : BannerState α) = st := by
  cases st; simp_all

/-- C6: `startMorph` during an active morph returns the state completely
unchanged — no field of the morph state (or any other field) is touched —
so at most one morph is in flight; a cycle timeout firing while
`isMorphing` is set only consumes the timer and changes nothing else; the
guard invariant "an active morph implies `isMorphing`" holds initially
and is preserved by every callback. -/
theorem C6_startMorph_guard :
    (∀ (sin : α → α) (toArt : String) (cb : Option ℕ) (now : α)
        (st : BannerState α),
      st.morph.active = true → startMorph sin toArt cb now st = st) ∧
    (∀ (sqrt sin : α → α) (now : α) (st : BannerState α),
      st.isMorphing = true →
      step sqrt sin (.cycleFire now) st = { st with cycleTimer := none }) ∧
    (∀ (cw : α) (arts : List String) (art0 : String),
      (initState cw arts art0).morph.active = false) ∧
    (∀ (sqrt sin : α → α) (e : Event α) (st : BannerState α),
      (st.morph.active = true → st.isMorphing = true) →
      ((step sqrt sin e st).morph.active = true →
        (step sqrt sin e st).isMorphing = true)) := by
  refine ⟨?_, ?_, ?_, ?_⟩
  · intro sin toArt cb now st h
    rw [startMorph]
    simp [h]
  · intro sqrt sin now st h
    rw [step]
    cases htimer : st.cycleTimer with
    | none => rw [setTimer_none_eq htimer]
    | some d => simp [cycle, h]
  · intro cw arts art0; rfl
  · intro sqrt sin e st hinv
    cases e with
    | frame now rand =>
      simp only [step, render_morph, render_isMorphing]
      by_cases ha : st.morph.active = true
      · by_cases hge : (1 : α) ≤ min ((now - st.morph.startTime) / st.morph.duration) 1
        · rw [morphPhase_active_done rand now _ ha hge]
          simp
        · rw [morphPhase_active_mid rand now _ ha hge]
          intro _; exact hinv ha
      · rw [morphPhase_not_active rand now (by simpa using ha)]
        intro h; exact hinv h
    | cycleFire now =>
      rw [step]
      cases htimer : st.cycleTimer with
      | none => exact hinv
      | some d =>
        simp only [cycle]
        split_ifs with hb
        · exact hinv
        · intro _
          simp
    | staleCycleFire now =>
      rw [step]
      split
      · exact hinv
      · simp only [cycle]
        split_ifs with hb
        · exact hinv
        · intro _
          simp
    | initialFire =>
      rw [step]
      split
      · simpa using hinv
      · exact hinv
    | mouseEnter => exact hinv
    | mouseMove x y => exact hinv
    | mouseLeave =>
      rw [step]
      split
      · exact hinv
      · simpa using hinv

/-- A concrete mid-morph state over `ℚ`, used to instantiate
hypothesis-carrying theorems. -/
def testMorphing : BannerState ℚ :=
  { cells := [], fontArts := [], charWidth := 0
    morph := { active := true, startTime := 0, duration := 600,
               fromSnap := [], toLines := [], thresholds := [],
               onComplete := none }
    currentTextIndex := 0, nextPause := 2000, cycleTimer := some 5
    staleTimers := 0, initialPending := false
    isMorphing := true, mouseX := 0, mouseY := 0, hovering := false }

/-- C6 witness: the guard conjuncts applied at the concrete mid-morph
state. -/
theorem C6_startMorph_guard_witness :
    startMorph (id : ℚ → ℚ) "Z" none 0 testMorphing = testMorphing ∧
    step (id : ℚ → ℚ) (id : ℚ → ℚ) (.cycleFire 0) testMorphing
      = { testMorphing with cycleTimer := none } ∧
    ((step (id : ℚ → ℚ) (id : ℚ → ℚ) Event.initialFire testMorphing).morph.active = true →
      (step (id : ℚ → ℚ) (id : ℚ → ℚ) Event.initialFire testMorphing).isMorphing = true) := by
  obtain ⟨h1, h2, _, h4⟩ := @C6_startMorph_guard ℚ _
  exact ⟨h1 id "Z" none 0 testMorphing rfl,
         h2 id id 0 testMorphing rfl,
         h4 id id Event.initialFire testMorphing (fun _ => rfl)⟩

/-! ### C7 -/

/-- The completion callback commutes with overwriting `hovering`: it
never reads that flag. -/
lemma runOnComplete_hovering_comm (st : BannerState α) (b : Bool) :
    runOnComplete { st with hovering := b }
      = { runOnComplete st with hovering := b } := by
  cases h : st.morph.onComplete with
  | none => simp [runOnComplete, h]
  | some i => simp [runOnComplete, h, scheduleCycle]

/-- The morph update commutes with overwriting `hovering`: morph progress
is entirely independent of the hover flag. -/
lemma morphPhase_hovering_comm (rand : ℕ → ℕ) (now : α) (st : BannerState α)
    (b : Bool) :
    morphPhase rand now { st with hovering := b }
      = { morphPhase rand now st with hovering := b } := by
  by_cases ha : st.morph.active = true
  · by_cases hge : (1 : α) ≤ min ((now - st.morph.startTime) / st.morph.duration) 1
    · rw [morphPhase_active_done rand now ({ st with hovering := b }) ha hge,
          morphPhase_active_done rand now st ha hge,
          ← runOnComplete_hovering_comm]
      rfl
    · rw [morphPhase_active_mid rand now ({ st with hovering := b }) ha hge,
          morphPhase_active_mid rand now st ha hge]
      rfl
  · have ha2 : ({ st with hovering := b } : BannerState α).morph.active = false := by
      simpa using ha
    rw [morphPhase_not_active rand now ha2,
        morphPhase_not_active rand now (by simpa using ha)]

/-- A whole frame commutes with overwriting `hovering`. -/
lemma render_hovering_comm (sqrt : α → α) (rand : ℕ → ℕ) (now : α)
    (st : BannerState α) (b : Bool) :
    render sqrt rand now { st with hovering := b }
      = { render sqrt rand now st with hovering := b } := by
  simp only [render, morphPhase_hovering_comm]

/-- C7 (counterexample): the claim says entering hover cancels ANY
pending cycle timer.  `connectedCallback` discards the initial-delay
timeout id and `scheduleCycle` overwrites `this.cycleTimer` without
`clearTimeout`, so after hover, unhover before the initial delay elapses
(arming a tracked cycle timeout), and the initial-delay timeout then
firing (arming a second cycle timeout and orphaning the first), entering
hover again clears only the tracked timeout: one pending, uncancellable
cycle timeout survives hover entry. -/
theorem C7_counterexample :
    ((step (id : ℚ → ℚ) (id : ℚ → ℚ) Event.mouseEnter
      (step id id Event.initialFire
        (step id id Event.mouseLeave
          (step id id Event.mouseEnter
            (initState (1 : ℚ) ["A", "B"] "A"))))).hovering = true) ∧
    ((step (id : ℚ → ℚ) (id : ℚ → ℚ) Event.mouseEnter
      (step id id Event.initialFire
        (step id id Event.mouseLeave
          (step id id Event.mouseEnter
            (initState (1 : ℚ) ["A", "B"] "A"))))).cycleTimer = none) ∧
    ((step (id : ℚ → ℚ) (id : ℚ → ℚ) Event.mouseEnter
      (step id id Event.initialFire
        (step id id Event.mouseLeave
          (step id id Event.mouseEnter
            (initState (1 : ℚ) ["A", "B"] "A"))))).staleTimers = 1) :=
  ⟨rfl, rfl, rfl⟩

/-- C7 (amended): entering hover cancels the pending cycle timeout
tracked by `this.cycleTimer` — but not a stale cycle timeout whose id was
overwritten, nor the initial-delay timeout, which survive hover entry; a
tracked or stale cycle timeout firing while hovering only consumes the
timeout and changes nothing else (in particular it starts no morph);
while hovering, no event can turn an inactive morph active; frames —
hence in-flight morphs — are entirely independent of the hover flag; and
leaving hover while not morphing immediately re-arms the timer with the
current pause. -/
theorem C7_hover_gate :
    (∀ (sqrt sin : α → α) (st : BannerState α),
      step sqrt sin .mouseEnter st = { st with hovering := true, cycleTimer := none } ∧
      (step sqrt sin .mouseEnter st).staleTimers = st.staleTimers ∧
      (step sqrt sin .mouseEnter st).initialPending = st.initialPending) ∧
    (∀ (sqrt sin : α → α) (now : α) (st : BannerState α),
      st.hovering = true →
      step sqrt sin (.cycleFire now) st = { st with cycleTimer := none }) ∧
    (∀ (sqrt sin : α → α) (now : α) (st : BannerState α),
      st.hovering = true → st.staleTimers ≠ 0 →
      step sqrt sin (.staleCycleFire now) st
        = { st with staleTimers := st.staleTimers - 1 }) ∧
    (∀ (sqrt sin : α → α) (e : Event α) (st : BannerState α),
      st.hovering = true → st.morph.active = false →
      (step sqrt sin e st).morph.active = false) ∧
    (∀ (sqrt : α → α) (rand : ℕ → ℕ) (now : α) (st : BannerState α) (b : Bool),
      render sqrt rand now { st with hovering := b }
        = { render sqrt rand now st with hovering := b }) ∧
    (∀ (sqrt sin : α → α) (st : BannerState α),
      st.isMorphing = false →
      step sqrt sin .mouseLeave st
          = scheduleCycle { st with hovering := false, mouseX := -9999, mouseY := -9999 } ∧
        (step sqrt sin .mouseLeave st).cycleTimer = some st.nextPause) := by
  refine ⟨?_, ?_, ?_, ?_, ?_, ?_⟩
  · intro sqrt sin st; exact ⟨rfl, rfl, rfl⟩
  · intro sqrt sin now st h
    rw [step]
    cases htimer : st.cycleTimer with
    | none => rw [setTimer_none_eq htimer]
    | some d => simp [cycle, h]
  · intro sqrt sin now st h hne
    rw [step, if_neg hne]
    simp [cycle, h]
  · intro sqrt sin e st hhov hact
    cases e with
    | frame now rand =>
      simp only [step, render_morph, morphPhase_not_active rand now hact]
      exact hact
    | cycleFire now =>
      rw [step]
      cases htimer : st.cycleTimer with
      | none => exact hact
      | some d => simp [cycle, hhov, hact]
    | staleCycleFire now =>
      rw [step]
      split
      · exact hact
      · simp [cycle, hhov, hact]
    | initialFire =>
      rw [step]
      split
      · simpa using hact
      · exact hact
    | mouseEnter => exact hact
    | mouseMove x y => exact hact
    | mouseLeave =>
      rw [step]
      split
      · exact hact
      · simpa using hact
  · exact render_hovering_comm
  · intro sqrt sin st hm
    have hstep : step sqrt sin .mouseLeave st
        = scheduleCycle { st with hovering := false, mouseX := -9999, mouseY := -9999 } := by
      simp only [step]
      rw [if_neg]
      simp [hm]
    exact ⟨hstep, by rw [hstep]; rfl⟩

/-- A concrete idle hovering state over `ℚ` with a tracked pending timer
and one stale pending cycle timeout. -/
def testHover : BannerState ℚ :=
  { cells := [], fontArts := [], charWidth := 0
    morph := { active := false, startTime := 0, duration := 600,
               fromSnap := [], toLines := [], thresholds := [],
               onComplete := none }
    currentTextIndex := 0, nextPause := 2000, cycleTimer := some 3
    staleTimers := 1, initialPending := false
    isMorphing := false, mouseX := 0, mouseY := 0, hovering := true }

/-- C7 witness: the hover-gate conjuncts at the concrete hovering state,
including a stale cycle timeout firing harmlessly during hover. -/
theorem C7_hover_gate_witness :
    step (id : ℚ → ℚ) (id : ℚ → ℚ) (.cycleFire 0) testHover
        = { testHover with cycleTimer := none } ∧
    step (id : ℚ → ℚ) (id : ℚ → ℚ) (.staleCycleFire 0) testHover
        = { testHover with staleTimers := 0 } ∧
    (step (id : ℚ → ℚ) (id : ℚ → ℚ) Event.mouseEnter testHover).morph.active = false ∧
    (step (id : ℚ → ℚ) (id : ℚ → ℚ) Event.mouseLeave testHover
        = scheduleCycle { testHover with hovering := false, mouseX := -9999, mouseY := -9999 } ∧
      (step (id : ℚ → ℚ) (id : ℚ → ℚ) Event.mouseLeave testHover).cycleTimer = some 2000) := by
  obtain ⟨_, h2, h3, h4, _, h6⟩ := @C7_hover_gate ℚ _
  exact ⟨h2 id id 0 testHover rfl,
         h3 id id 0 testHover rfl (by decide),
         h4 id id Event.mouseEnter testHover rfl rfl,
         h6 id id testHover rfl⟩

/-! ### C10 -/

/-- The glyph loop preserves the number of cells. -/
lemma morphCells_length (rand : ℕ → ℕ) (progress : α) (st : BannerState α) :
    (morphCells rand progress st).length = st.cells.length := by
  simp [morphCells]

/-- `mkThresholds` yields one threshold per cell. -/
lemma mkThresholds_length (sin : α → α) (cells : List (Cell α)) :
    (mkThresholds sin cells).length = cells.length := by
  simp [mkThresholds]

/-- The alignment invariant behind the per-frame indexed reads
`thresholds[i]` and `fromSnap[i]`: whenever a morph is active, both
arrays are exactly as long as `cells`. -/
def MorphInv (st : BannerState α) : Prop :=
  st.morph.active = true →
    st.morph.thresholds.length = st.cells.length ∧
    st.morph.fromSnap.length = st.cells.length

/-- Shape of any single callback: either the morph state is untouched and
the cell count is preserved, or the resulting morph is inactive, or (only
from an inactive morph) a fresh morph was installed whose threshold and
snapshot arrays match the resulting cells. -/
lemma step_shape (sqrt sin : α → α) (e : Event α) (st : BannerState α) :
    ((step sqrt sin e st).morph = st.morph ∧
      (step sqrt sin e st).cells.length = st.cells.length) ∨
    ((step sqrt sin e st).morph.active = false) ∨
    (st.morph.active = false ∧
      (step sqrt sin e st).morph.thresholds.length = (step sqrt sin e st).cells.length ∧
      (step sqrt sin e st).morph.fromSnap.length = (step sqrt sin e st).cells.length) := by
  cases e with
  | frame now rand =>
    by_cases ha : st.morph.active = true
    · by_cases hge : (1 : α) ≤ min ((now - st.morph.startTime) / st.morph.duration) 1
      · right; left
        simp only [step, render_morph, morphPhase_active_done rand now st ha hge,
          runOnComplete_morph]
      · left
        constructor
        · simp only [step, render_morph, morphPhase_active_mid rand now st ha hge]
        · simp only [step]
          rw [render_cells]
          simp [morphPhase_active_mid rand now st ha hge, morphCells_length]
    · left
      have hmp := morphPhase_not_active rand now (by simpa using ha)
      constructor
      · simp only [step, render_morph, hmp]
      · simp only [step]
        rw [render_cells, hmp]
        simp
  | cycleFire now =>
    rw [step]
    cases htimer : st.cycleTimer with
    | none => left; exact ⟨rfl, rfl⟩
    | some d =>
      simp only [cycle]
      split_ifs with hb
      · left; exact ⟨rfl, rfl⟩
      · by_cases ha : st.morph.active = true
        · left
          rw [startMorph, if_pos ha]
          exact ⟨rfl, rfl⟩
        · right; right
          rw [startMorph, if_neg ha]
          refine ⟨by simpa using ha, ?_, rfl⟩
          simpa using mkThresholds_length sin st.cells
  | staleCycleFire now =>
    rw [step]
    split
    · left; exact ⟨rfl, rfl⟩
    · simp only [cycle]
      split_ifs with hb
      · left; exact ⟨rfl, rfl⟩
      · by_cases ha : st.morph.active = true
        · left
          rw [startMorph, if_pos ha]
          exact ⟨rfl, rfl⟩
        · right; right
          rw [startMorph, if_neg ha]
          refine ⟨by simpa using ha, ?_, rfl⟩
          simpa using mkThresholds_length sin st.cells
  | initialFire =>
    rw [step]
    split
    · left; exact ⟨rfl, rfl⟩
    · left; exact ⟨rfl, rfl⟩
  | mouseEnter => left; exact ⟨rfl, rfl⟩
  | mouseMove x y => left; exact ⟨rfl, rfl⟩
  | mouseLeave =>
    rw [step]
    split
    · left; exact ⟨rfl, rfl⟩
    · left; exact ⟨rfl, rfl⟩

/-- C10: while a morph is active the snapshot and threshold arrays are
exactly as long as the cells array; this holds initially, is preserved by
every callback (rebuilds happen only after `active` is cleared), and makes
every per-frame indexed read `thresholds[i]` / `fromSnap[i]` in-bounds;
moreover no callback changes the cell count while a morph stays active. -/
theorem C10_morph_index_safety :
    (∀ (cw : α) (arts : List String) (art0 : String),
      MorphInv (initState cw arts art0)) ∧
    (∀ (sqrt sin : α → α) (e : Event α) (st : BannerState α),
      MorphInv st → MorphInv (step sqrt sin e st)) ∧
    (∀ st : BannerState α, MorphInv st → st.morph.active = true →
      ∀ i : ℕ, i < st.cells.length →
        (st.morph.thresholds[i]?).isSome ∧ (st.morph.fromSnap[i]?).isSome) ∧
    (∀ (sqrt sin : α → α) (e : Event α) (st : BannerState α),
      st.morph.active = true → (step sqrt sin e st).morph.active = true →
      (step sqrt sin e st).cells.length = st.cells.length) := by
  refine ⟨?_, ?_, ?_, ?_⟩
  · intro cw arts art0 h
    simp [initState, initMorph] at h
  · intro sqrt sin e st hinv
    rcases step_shape sqrt sin e st with ⟨hm, hl⟩ | hi | ⟨_, h1, h2⟩
    · intro hact
      rw [hm, hl]
      exact hinv (by rw [← hm]; exact hact)
    · intro hact
      rw [hi] at hact
      cases hact
    · intro _
      exact ⟨h1, h2⟩
  · intro st hinv hact i hi
    obtain ⟨h1, h2⟩ := hinv hact
    constructor
    · simp [List.getElem?_eq_getElem (show i < st.morph.thresholds.length by omega)]
    · simp [List.getElem?_eq_getElem (show i < st.morph.fromSnap.length by omega)]
  · intro sqrt sin e st hact hact2
    rcases step_shape sqrt sin e st with ⟨_, hl⟩ | hi | ⟨hf, _, _⟩
    · exact hl
    · rw [hi] at hact2; cases hact2
    · rw [hf] at hact; cases hact

/-- C10 witness: the invariant conjuncts applied at the concrete
mid-morph state (whose arrays are empty, matching its empty cell list)
and a concrete initial state. -/
theorem C10_morph_index_safety_witness :
    MorphInv (initState (1 : ℚ) ["A"] "A") ∧
    MorphInv (step (id : ℚ → ℚ) (id : ℚ → ℚ) Event.initialFire testMorphing) ∧
    (step (id : ℚ → ℚ) (id : ℚ → ℚ) Event.initialFire testMorphing).cells.length
      = testMorphing.cells.length := by
  obtain ⟨h1, h2, _, h4⟩ := @C10_morph_index_safety ℚ _
  exact ⟨h1 1 ["A"] "A",
         h2 id id Event.initialFire testMorphing (fun _ => ⟨rfl, rfl⟩),
         h4 id id Event.initialFire testMorphing rfl rfl⟩

/-! ### C5 -/

/-- Unfolding of the completion callback when a cycle closure is
installed. -/
lemma runOnComplete_some (st : BannerState α) (idx : ℕ)
    (h : st.morph.onComplete = some idx) :
    runOnComplete st =
      scheduleCycle
        { st with
          cells := buildGrid st.charWidth (st.fontArts.getD idx "")
          currentTextIndex := idx
          isMorphing := false } := by
  simp [runOnComplete, h]

/-- C5: when an active morph's progress reaches 1, the frame clears
`active` and runs the completion callback exactly once: the grid is
rebuilt from the captured target block (then the same frame's physics step
runs over the fresh cells), `isMorphing` clears, the captured index is
committed, and the next cycle timer is armed.  A frame with no active
morph re-runs none of this (the callback cannot fire twice).  Every grid
rebuild yields cells at rest with zero velocity. -/
theorem C5_completion :
    (∀ (sqrt : α → α) (rand : ℕ → ℕ) (now : α) (st : BannerState α) (idx : ℕ),
      st.morph.active = true → st.morph.duration = 600 →
      st.morph.onComplete = some idx →
      st.morph.startTime + 600 ≤ now →
      (render sqrt rand now st).morph.active = false ∧
      (render sqrt rand now st).isMorphing = false ∧
      (render sqrt rand now st).currentTextIndex = idx ∧
      (render sqrt rand now st).cycleTimer = some st.nextPause ∧
      (render sqrt rand now st).cells
        = (buildGrid st.charWidth (st.fontArts.getD idx "")).map
            (physStep sqrt st.mouseX st.mouseY)) ∧
    (∀ (sqrt : α → α) (rand : ℕ → ℕ) (now : α) (st : BannerState α),
      st.morph.active = false →
      render sqrt rand now st
        = { st with cells := st.cells.map (physStep sqrt st.mouseX st.mouseY) }) ∧
    (∀ (cw : α) (art : String), ∀ c ∈ buildGrid cw art,
      c.px = c.rx ∧ c.py = c.ry ∧ c.vx = 0 ∧ c.vy = 0) := by
  refine ⟨?_, ?_, ?_⟩
  · intro sqrt rand now st idx hact hdur hcb hnow
    have hge : (1 : α) ≤ min ((now - st.morph.startTime) / st.morph.duration) 1 := by
      rw [hdur]
      refine le_min ?_ le_rfl
      rw [le_div_iff₀ (by norm_num : (0 : α) < 600)]
      linarith
    have hdone := morphPhase_active_done rand now st hact hge
    have hcb2 : (({ st with
        cells := morphCells rand (min ((now - st.morph.startTime) / st.morph.duration) 1) st
        morph := { st.morph with active := false } } : BannerState α)).morph.onComplete
        = some idx := hcb
    rw [runOnComplete_some _ idx hcb2] at hdone
    refine ⟨?_, ?_, ?_, ?_, ?_⟩
    · rw [render_morph, hdone]; rfl
    · rw [render_isMorphing, hdone]; rfl
    · rw [render_currentTextIndex, hdone]; rfl
    · rw [render_cycleTimer, hdone]; rfl
    · rw [render_cells, hdone]; rfl
  · intro sqrt rand now st hact
    have hmp := morphPhase_not_active rand now hact
    simp only [render, hmp]
  · intro cw art c hc
    exact mem_buildGrid_rest hc

/-- A concrete morph state over `ℚ` one frame from completion: duration
600, started at 0, completion closure capturing index 0 of a one-block
style. -/
def testCompleting : BannerState ℚ :=
  { cells := [], fontArts := ["B"], charWidth := 1
    morph := { active := true, startTime := 0, duration := 600,
               fromSnap := [], toLines := [], thresholds := [],
               onComplete := some 0 }
    currentTextIndex := 0, nextPause := 2000, cycleTimer := none
    staleTimers := 0, initialPending := false
    isMorphing := true, mouseX := -9999, mouseY := -9999, hovering := false }

/-- C5 witness: the completion conjuncts at the concrete state, sampled
at timestamp 600 (progress exactly 1), plus the at-rest property of the
rebuilt grid's first cell. -/
theorem C5_completion_witness :
    ((render (id : ℚ → ℚ) (fun _ => 0) 600 testCompleting).morph.active = false ∧
      (render (id : ℚ → ℚ) (fun _ => 0) 600 testCompleting).isMorphing = false ∧
      (render (id : ℚ → ℚ) (fun _ => 0) 600 testCompleting).currentTextIndex = 0 ∧
      (render (id : ℚ → ℚ) (fun _ => 0) 600 testCompleting).cycleTimer = some 2000 ∧
      (render (id : ℚ → ℚ) (fun _ => 0) 600 testCompleting).cells
        = (buildGrid (1 : ℚ) "B").map (physStep id (-9999) (-9999))) ∧
    (((buildGrid (1 : ℚ) "B").get ⟨0, by decide⟩).px
        = ((buildGrid (1 : ℚ) "B").get ⟨0, by decide⟩).rx ∧
      ((buildGrid (1 : ℚ) "B").get ⟨0, by decide⟩).vx = 0) := by
  obtain ⟨h1, _, h3⟩ := @C5_completion ℚ _
  have hmain := h1 id (fun _ => 0) 600 testCompleting 0 rfl rfl rfl (by norm_num [testCompleting])
  have hrest := h3 1 "B" _ (List.get_mem (buildGrid (1 : ℚ) "B") 0 (by decide))
  exact ⟨hmain, hrest.1, hrest.2.2.1⟩

/-! ### C9 -/

/-- C9 (counterexample): the claim says a selected Style with zero
ArtBlocks is absorbed by count checks, with the initial static render
still occurring and no exception.  In the source, `fontArts[0]` is then
`undefined` and `initCanvas(undefined)` throws a `TypeError` at
`art.split('\n')`: with one style holding zero blocks the component
throws instead of rendering. -/
theorem C9_counterexample :
    connectedCallback (1 : ℚ) [[]] true 0 = Except.error () := rfl

/-- C9 (amended): empty or missing style data (no canvas, or an empty
`arts` array) renders nothing and stays silently inert, guarded by the
`!canvas || arts.length === 0` check; but a selected Style with zero
ArtBlocks is NOT absorbed: the first-block lookup fails and the initial
render path throws, so neither the static render nor cycling occurs.
With at least one block the callback initialises normally. -/
theorem C9_inert_or_throw :
    (∀ (cw : α) (hasCanvas : Bool) (fontIndex : ℕ),
      connectedCallback cw ([] : List (List String)) hasCanvas fontIndex = .ok none) ∧
    (∀ (cw : α) (arts : List (List String)) (fontIndex : ℕ),
      connectedCallback cw arts false fontIndex = .ok none) ∧
    (∀ (cw : α) (arts : List (List String)) (fontIndex : ℕ),
      arts.length ≠ 0 → (arts.getD fontIndex []).length = 0 →
      connectedCallback cw arts true fontIndex = .error ()) ∧
    (∀ (cw : α) (arts : List (List String)) (fontIndex : ℕ) (art0 : String),
      arts.length ≠ 0 → (arts.getD fontIndex [])[0]? = some art0 →
      connectedCallback cw arts true fontIndex
        = .ok (some (initState cw (arts.getD fontIndex []) art0))) := by
  refine ⟨?_, ?_, ?_, ?_⟩
  · intro cw hasCanvas fontIndex
    simp [connectedCallback]
  · intro cw arts fontIndex
    simp [connectedCallback]
  · intro cw arts fontIndex hne hlen
    rw [connectedCallback, if_neg (by simp [hne])]
    have h0 : ((arts.getD fontIndex [])[0]? : Option String) = none := by
      rw [List.getElem?_eq_none]
      omega
    rw [h0]
  · intro cw arts fontIndex art0 hne h0
    rw [connectedCallback, if_neg (by simp [hne]), h0]

/-- C9 witness: the inert and the successful paths at concrete inputs. -/
theorem C9_inert_or_throw_witness :
    connectedCallback (1 : ℚ) ([] : List (List String)) true 0 = .ok none ∧
    connectedCallback (1 : ℚ) [["A"]] true 0
      = .ok (some (initState (1 : ℚ) ["A"] "A")) := by
  obtain ⟨h1, _, _, h4⟩ := @C9_inert_or_throw ℚ _
  exact ⟨h1 1 true 0, h4 1 [["A"]] 0 "A" (by decide) rfl⟩

/-! ### C8 -/

/-- The cosine of a rational number is never zero: the zeros of `cos` are
odd multiples of `π/2`, which are irrational. -/
lemma cos_rat_ne_zero (q : ℚ) : Real.cos q ≠ 0 := by
  intro h
  obtain ⟨k, hk⟩ := Real.cos_eq_zero_iff.mp h
  have hk0 : ((2 * k + 1 : ℤ) : ℝ) ≠ 0 := by
    exact_mod_cast (by omega : (2 * k + 1 : ℤ) ≠ 0)
  have hq : ((2 * q / (2 * (k : ℚ) + 1) : ℚ) : ℝ) = Real.pi := by
    push_cast
    push_cast at hk hk0
    field_simp
    field_simp at hk
    linarith
  exact irrational_pi ⟨2 * q / (2 * (k : ℚ) + 1), hq⟩

/-- The sine of a rational number lies strictly between −1 and 1. -/
lemma abs_sin_rat_lt_one (q : ℚ) : |Real.sin q| < 1 := by
  have hc := cos_rat_ne_zero q
  have hcsq : 0 < Real.cos q ^ 2 := by positivity
  have hs := Real.sin_sq_add_cos_sq (q : ℝ)
  have h2 : Real.sin q ^ 2 < 1 := by nlinarith
  exact (sq_lt_one_iff_abs_lt_one _).mp h2

/-- The threshold-formula argument `row * 13.37 + col * 7.13` is the cast
of a rational number. -/
lemma threshold_arg_rat (r c : ℕ) :
    ((r : ℝ) * 13.37 + (c : ℝ) * 7.13)
      = (((r : ℚ) * (1337 / 100) + (c : ℚ) * (713 / 100) : ℚ) : ℝ) := by
  push_cast
  norm_num

/-- Every threshold produced by the wave formula lies strictly inside
`(0.15, 0.85)`. -/
lemma thresholdOf_mem (r c : ℕ) :
    0.15 < thresholdOf Real.sin r c ∧ thresholdOf Real.sin r c < 0.85 := by
  have h : |Real.sin ((r : ℝ) * 13.37 + (c : ℝ) * 7.13)| < 1 := by
    rw [threshold_arg_rat]
    exact abs_sin_rat_lt_one _
  rw [abs_lt] at h
  rw [thresholdOf]
  constructor <;> nlinarith [h.1, h.2]

/-- C8: `startMorph` assigns thresholds by the fixed deterministic
formula `(sin(row·13.37 + col·7.13)·0.5 + 0.5)·0.7 + 0.15` applied to
each cell's `(row, col)`; identical grid geometry yields identical
threshold arrays; and every threshold lies strictly inside
`(0.15, 0.85)`. -/
theorem C8_threshold_wave :
    (∀ r c : ℕ, 0.15 < thresholdOf Real.sin r c ∧ thresholdOf Real.sin r c < 0.85) ∧
    (∀ cells1 cells2 : List (Cell ℝ),
      cells1.map (fun cl => (cl.row, cl.col)) = cells2.map (fun cl => (cl.row, cl.col)) →
      mkThresholds Real.sin cells1 = mkThresholds Real.sin cells2) ∧
    (∀ (toArt : String) (cb : Option ℕ) (now : ℝ) (st : BannerState ℝ),
      st.morph.active = false →
      (startMorph Real.sin toArt cb now st).morph.thresholds
        = mkThresholds Real.sin st.cells) := by
  refine ⟨thresholdOf_mem, ?_, ?_⟩
  · intro cells1 cells2 h12
    have key : ∀ cells : List (Cell ℝ),
        mkThresholds Real.sin cells
          = (cells.map (fun cl => (cl.row, cl.col))).map
              (fun p => thresholdOf Real.sin p.1 p.2) := by
      intro cells
      rw [mkThresholds, List.map_map]
      rfl
    rw [key, key, h12]
  · intro toArt cb now st hact
    rw [startMorph, if_neg (by simp [hact])]

/-- C8 witness: the bounds at cell (0, 0); determinism on two concrete
single-cell grids sharing (row, col) but differing in position; and the
`startMorph` assignment on a concrete initial state. -/
theorem C8_threshold_wave_witness :
    (0.15 < thresholdOf Real.sin 0 0 ∧ thresholdOf Real.sin 0 0 < 0.85) ∧
    mkThresholds Real.sin ([⟨blankChar, 0, 1, 0, 0, 0, 0, 0, 0⟩] : List (Cell ℝ))
      = mkThresholds Real.sin ([⟨blankChar, 0, 1, 5, 5, 5, 5, 0, 0⟩] : List (Cell ℝ)) ∧
    (startMorph Real.sin "B" none 0 (initState (1 : ℝ) ["A"] "A")).morph.thresholds
      = mkThresholds Real.sin (initState (1 : ℝ) ["A"] "A").cells := by
  obtain ⟨h1, h2, h3⟩ := C8_threshold_wave
  exact ⟨h1 0 0, h2 _ _ rfl, h3 "B" none 0 _ rfl⟩

/-! ### C3 -/

/-- C3: the per-cell physics step, in order: (1) the repulsion distance
is measured from the pointer to the REST position `(rx, ry)`; (2) inside
the radius (0 < dist < 80) a velocity impulse
`(dx/dist, dy/dist) · 3·(1 − dist/80)` is added, and none otherwise;
(3) the spring impulse `0.15·(rest − current)` is added; (4) velocity is
damped by 0.7; (5) position is incremented once by the resulting
velocity.  The impulse has squared magnitude `(3·(1 − dist/80))²` —
linear from maximum 3 at distance 0 to 0 at the radius — and is a
positive multiple of (rest − pointer), i.e. directed away from the
pointer.  The frame loop applies the step to every cell whether or not a
morph is active. -/
theorem C3_physics_step :
    (∀ (mx my : ℝ) (c : Cell ℝ),
      ¬(Real.sqrt ((c.rx - mx) * (c.rx - mx) + (c.ry - my) * (c.ry - my)) < 80 ∧
          0 < Real.sqrt ((c.rx - mx) * (c.rx - mx) + (c.ry - my) * (c.ry - my))) →
      physStep Real.sqrt mx my c
        = { c with
            vx := (c.vx + (c.rx - c.px) * 0.15) * 0.7
            vy := (c.vy + (c.ry - c.py) * 0.15) * 0.7
            px := c.px + (c.vx + (c.rx - c.px) * 0.15) * 0.7
            py := c.py + (c.vy + (c.ry - c.py) * 0.15) * 0.7 }) ∧
    (∀ (mx my : ℝ) (c : Cell ℝ),
      (Real.sqrt ((c.rx - mx) * (c.rx - mx) + (c.ry - my) * (c.ry - my)) < 80 ∧
          0 < Real.sqrt ((c.rx - mx) * (c.rx - mx) + (c.ry - my) * (c.ry - my))) →
      physStep Real.sqrt mx my c
        = { c with
            vx := (c.vx + (c.rx - mx) /
                    Real.sqrt ((c.rx - mx) * (c.rx - mx) + (c.ry - my) * (c.ry - my)) *
                    (3 * (1 - Real.sqrt ((c.rx - mx) * (c.rx - mx) + (c.ry - my) * (c.ry - my)) / 80))
                  + (c.rx - c.px) * 0.15) * 0.7
            vy := (c.vy + (c.ry - my) /
                    Real.sqrt ((c.rx - mx) * (c.rx - mx) + (c.ry - my) * (c.ry - my)) *
                    (3 * (1 - Real.sqrt ((c.rx - mx) * (c.rx - mx) + (c.ry - my) * (c.ry - my)) / 80))
                  + (c.ry - c.py) * 0.15) * 0.7
            px := c.px + (c.vx + (c.rx - mx) /
                    Real.sqrt ((c.rx - mx) * (c.rx - mx) + (c.ry - my) * (c.ry - my)) *
                    (3 * (1 - Real.sqrt ((c.rx - mx) * (c.rx - mx) + (c.ry - my) * (c.ry - my)) / 80))
                  + (c.rx - c.px) * 0.15) * 0.7
            py := c.py + (c.vy + (c.ry - my) /
                    Real.sqrt ((c.rx - mx) * (c.rx - mx) + (c.ry - my) * (c.ry - my)) *
                    (3 * (1 - Real.sqrt ((c.rx - mx) * (c.rx - mx) + (c.ry - my) * (c.ry - my)) / 80))
                  + (c.ry - c.py) * 0.15) * 0.7 }) ∧
    (∀ dx dy : ℝ,
      (Real.sqrt (dx * dx + dy * dy) < 80 ∧ 0 < Real.sqrt (dx * dx + dy * dy)) →
      (dx / Real.sqrt (dx * dx + dy * dy) * (3 * (1 - Real.sqrt (dx * dx + dy * dy) / 80))) ^ 2
        + (dy / Real.sqrt (dx * dx + dy * dy) * (3 * (1 - Real.sqrt (dx * dx + dy * dy) / 80))) ^ 2
        = (3 * (1 - Real.sqrt (dx * dx + dy * dy) / 80)) ^ 2 ∧
      dx / Real.sqrt (dx * dx + dy * dy) * (3 * (1 - Real.sqrt (dx * dx + dy * dy) / 80))
        = (3 * (1 - Real.sqrt (dx * dx + dy * dy) / 80) / Real.sqrt (dx * dx + dy * dy)) * dx ∧
      dy / Real.sqrt (dx * dx + dy * dy) * (3 * (1 - Real.sqrt (dx * dx + dy * dy) / 80))
        = (3 * (1 - Real.sqrt (dx * dx + dy * dy) / 80) / Real.sqrt (dx * dx + dy * dy)) * dy ∧
      0 < 3 * (1 - Real.sqrt (dx * dx + dy * dy) / 80) / Real.sqrt (dx * dx + dy * dy)) ∧
    ((3 : ℝ) * (1 - 0 / 80) = 3 ∧ (3 : ℝ) * (1 - 80 / 80) = 0 ∧
      ∀ d1 d2 : ℝ, 0 ≤ d1 → d1 ≤ d2 → d2 ≤ 80 →
        3 * (1 - d2 / 80) ≤ 3 * (1 - d1 / 80)) ∧
    (∀ (sqrt : ℝ → ℝ) (rand : ℕ → ℕ) (now : ℝ) (st : BannerState ℝ),
      (render sqrt rand now st).cells
        = (morphPhase rand now st).cells.map (physStep sqrt st.mouseX st.mouseY)) := by
  refine ⟨?_, ?_, ?_, ⟨by norm_num, by norm_num, ?_⟩, ?_⟩
  · intro mx my c h
    simp only [physStep, if_neg h]
  · intro mx my c h
    simp only [physStep, if_pos h]
  · intro dx dy h
    obtain ⟨hlt, hpos⟩ := h
    have hne : Real.sqrt (dx * dx + dy * dy) ≠ 0 := ne_of_gt hpos
    have hs2 : Real.sqrt (dx * dx + dy * dy) ^ 2 = dx * dx + dy * dy :=
      Real.sq_sqrt (add_nonneg (mul_self_nonneg dx) (mul_self_nonneg dy))
    refine ⟨?_, by ring, by ring, ?_⟩
    · have key : (dx / Real.sqrt (dx * dx + dy * dy) *
          (3 * (1 - Real.sqrt (dx * dx + dy * dy) / 80))) ^ 2
          + (dy / Real.sqrt (dx * dx + dy * dy) *
          (3 * (1 - Real.sqrt (dx * dx + dy * dy) / 80))) ^ 2
          = (dx * dx + dy * dy) / Real.sqrt (dx * dx + dy * dy) ^ 2
            * (3 * (1 - Real.sqrt (dx * dx + dy * dy) / 80)) ^ 2 := by
        field_simp
        ring
      rw [key]
      nth_rewrite 1 [← hs2]
      rw [div_self (pow_ne_zero 2 hne), one_mul]
    · have hfrac : Real.sqrt (dx * dx + dy * dy) / 80 < 1 := by
        rw [div_lt_one (by norm_num : (0:ℝ) < 80)]
        exact hlt
      have hforce : 0 < 3 * (1 - Real.sqrt (dx * dx + dy * dy) / 80) := by nlinarith
      positivity
  · intro d1 d2 h0 h12 h80
    linarith
  · intro sqrt rand now st
    exact render_cells sqrt rand now st

/-- A cell resting exactly at the pointer (distance 0: no impulse). -/
def cFar : Cell ℝ := ⟨blankChar, 0, 0, 0, 0, 0, 0, 0, 0⟩

/-- A cell resting 40 units below the pointer (inside the radius). -/
def cNear : Cell ℝ := ⟨blankChar, 0, 0, 0, 40, 0, 40, 0, 0⟩

/-- C3 witness: the step at distance 0 adds no impulse (a cell at rest at
the pointer stays put), and at distance 40 the damped impulse
`0.7 · (40/40) · 3 · (1 − 40/80) = 21/20` appears in the velocity. -/
theorem C3_physics_step_witness :
    (physStep Real.sqrt 0 0 cFar).px = 0 ∧
    (physStep Real.sqrt 0 0 cNear).vy = 21 / 20 := by
  obtain ⟨h1, h2, _, _, _⟩ := C3_physics_step
  constructor
  · have hcond : ¬(Real.sqrt ((cFar.rx - 0) * (cFar.rx - 0) + (cFar.ry - 0) * (cFar.ry - 0)) < 80 ∧
        0 < Real.sqrt ((cFar.rx - 0) * (cFar.rx - 0) + (cFar.ry - 0) * (cFar.ry - 0))) := by
      have hz : ((cFar.rx : ℝ) - 0) * (cFar.rx - 0) + (cFar.ry - 0) * (cFar.ry - 0) = 0 := by
        norm_num [cFar]
      rw [hz, Real.sqrt_zero]
      norm_num
    rw [h1 0 0 cFar hcond]
    norm_num [cFar]
  · have h1600 : Real.sqrt (1600 : ℝ) = 40 := by
      rw [show (1600 : ℝ) = 40 ^ 2 by norm_num, Real.sqrt_sq (by norm_num : (0:ℝ) ≤ 40)]
    have hz : ((cNear.rx : ℝ) - 0) * (cNear.rx - 0) + (cNear.ry - 0) * (cNear.ry - 0) = 1600 := by
      norm_num [cNear]
    have hcond : Real.sqrt ((cNear.rx - 0) * (cNear.rx - 0) + (cNear.ry - 0) * (cNear.ry - 0)) < 80 ∧
        0 < Real.sqrt ((cNear.rx - 0) * (cNear.rx - 0) + (cNear.ry - 0) * (cNear.ry - 0)) := by
      rw [hz, h1600]; norm_num
    rw [h2 0 0 cNear hcond]
    norm_num [cNear, hz, h1600]

/-! ### C2 helpers -/

/-- Indexed view of the glyph-rewrite loop. -/
lemma morphCells_getElem (rand : ℕ → ℕ) (progress : α) (st : BannerState α)
    (i : ℕ) :
    (morphCells rand progress st)[i]?
      = (st.cells[i]?).map (fun c =>
          { c with char :=
              (morphCellChar (st.morph.thresholds[i]?)
                (snapChar st.morph.fromSnap i)
                (targetChar st.morph.toLines c.row c.col)
                (glitchAt (rand i)) progress) }) := by
  simp only [morphCells, List.getElem?_map, List.getElem?_enum]
  cases st.cells[i]? <;> simp

/-- Mapping the physics step over cells never changes the glyph at any
index. -/
lemma map_physStep_char (sqrt : α → α) (mx my : α) (l : List (Cell α))
    (i : ℕ) :
    ((l.map (physStep sqrt mx my))[i]?).map Cell.char
      = (l[i]?).map Cell.char := by
  simp only [List.getElem?_map]
  cases l[i]? <;> simp [physStep_char]

/-- Resolved branch: `progress >= threshold` shows the target glyph. -/
lemma morphCellChar_resolved {t p : α} (fc tc rc : Char) (h : t ≤ p) :
    morphCellChar (some t) fc tc rc p = tc := by
  simp [morphCellChar, h]

/-- Glitch branch: `threshold·0.3 < progress < threshold` shows the fresh
random glyph. -/
lemma morphCellChar_glitch {t p : α} (fc tc rc : Char) (h1 : ¬ t ≤ p)
    (h2 : t * 0.3 < p) :
    morphCellChar (some t) fc tc rc p = rc := by
  simp [morphCellChar, h1, h2]

/-- Snapshot branch: `progress ≤ threshold·0.3` keeps the pre-morph
glyph. -/
lemma morphCellChar_from {t p : α} (fc tc rc : Char) (h1 : ¬ t ≤ p)
    (h2 : ¬ t * 0.3 < p) :
    morphCellChar (some t) fc tc rc p = fc := by
  simp [morphCellChar, h1, h2]

/-- The glitch glyph is always drawn from the fixed 40-character
alphabet when the random index is in range. -/
lemma glitchAt_mem {r : ℕ} (h : r < 40) : glitchAt r ∈ GLITCH_CHARS := by
  have hlen : r < GLITCH_CHARS.length := by
    have : GLITCH_CHARS.length = 40 := by decide
    omega
  rw [glitchAt, List.getD_eq_getElem?_getD, List.getElem?_eq_getElem hlen]
  exact List.getElem_mem hlen

/-- `startMorph` from an inactive morph, unfolded. -/
lemma startMorph_not_active (sin : α → α) (toArt : String) (cb : Option ℕ)
    (now : α) (st : BannerState α) (h : st.morph.active = false) :
    startMorph sin toArt cb now st
      = { st with morph :=
          { active := true
            startTime := now
            duration := st.morph.duration
            fromSnap := st.cells
            toLines := splitLines toArt
            thresholds := mkThresholds sin st.cells
            onComplete := cb } } := by
  rw [startMorph, if_neg (by simp [h])]

/-- The thresholds installed by `startMorph`, read back per cell. -/
lemma mkThresholds_getElem (sin : α → α) (cells : List (Cell α)) (i : ℕ) :
    (mkThresholds sin cells)[i]?
      = (cells[i]?).map (fun c => thresholdOf sin c.row c.col) := by
  simp [mkThresholds, List.getElem?_map]

/-- Triples view of a built grid: mapping away the numeric fields leaves
the enumerated characters of the split art. -/
lemma buildGrid_map_triple (cw : α) (art : String) :
    (buildGrid cw art).map (fun c => (c.row, c.col, c.char))
      = ((splitLines art).enum.map
          (fun rl => rl.2.enum.map (fun cc => (rl.1, cc.1, cc.2)))).flatten := by
  rw [buildGrid, List.map_flatten, List.map_map]
  apply congrArg List.flatten
  apply List.map_congr_left
  intro rl _
  simp [List.map_map]

/-- The physics step changes no (row, col, char) triple. -/
lemma map_physStep_triple (sqrt : α → α) (mx my : α) (l : List (Cell α)) :
    (l.map (physStep sqrt mx my)).map (fun c => (c.row, c.col, c.char))
      = l.map (fun c => (c.row, c.col, c.char)) := by
  rw [List.map_map]
  rfl

/-- `runOnComplete` does nothing when no callback is installed. -/
lemma runOnComplete_none (st : BannerState α) (h : st.morph.onComplete = none) :
    runOnComplete st = st := by
  simp [runOnComplete, h]

/-- A frame at or past the end of an active morph with an installed
completion closure: the resulting cell triples are exactly the enumerated
characters of the captured target art. -/
lemma frame_completion_triples (sqrt : ℝ → ℝ) (rand : ℕ → ℕ) (now : ℝ)
    (st : BannerState ℝ) (idx : ℕ)
    (hact : st.morph.active = true) (hdur : st.morph.duration = 600)
    (hcb : st.morph.onComplete = some idx)
    (hnow : st.morph.startTime + 600 ≤ now) :
    ((step sqrt Real.sin (Event.frame now rand) st).cells).map
        (fun c => (c.row, c.col, c.char))
      = ((splitLines (st.fontArts.getD idx "")).enum.map
          (fun rl => rl.2.enum.map (fun cc => (rl.1, cc.1, cc.2)))).flatten := by
  have hge : (1 : ℝ) ≤ min ((now - st.morph.startTime) / st.morph.duration) 1 := by
    rw [hdur]
    refine le_min ?_ le_rfl
    rw [le_div_iff₀ (by norm_num : (0 : ℝ) < 600)]
    linarith
  have hdone := morphPhase_active_done rand now st hact hge
  have hcb2 : (({ st with
      cells := morphCells rand (min ((now - st.morph.startTime) / st.morph.duration) 1) st
      morph := { st.morph with active := false } } : BannerState ℝ)).morph.onComplete
      = some idx := hcb
  rw [runOnComplete_some _ idx hcb2] at hdone
  have hstep : step sqrt Real.sin (Event.frame now rand) st
      = render sqrt rand now st := rfl
  rw [hstep, render_cells, hdone]
  simp only [scheduleCycle_cells]
  rw [map_physStep_triple, buildGrid_map_triple]

/-! ### C2 -/

/-- C2: during an active morph each frame computes
`progress = min((now − startTime)/duration, 1)`, which equals
`clamp((now − startTime)/duration, 0, 1)` whenever the frame is not
earlier than the morph start; for every cell with threshold `t > 0`
(every formula threshold is > 0.15) the frame sets the glyph to the
target glyph when `progress ≥ t`, to a fresh member of the 40-character
glitch alphabet when `t·0.3 < progress < t`, and to the pre-morph
snapshot glyph when `progress ≤ t·0.3`; at progress 0 every glyph equals
its pre-morph value; at progress 1 every glyph equals its target value
(blank where the target has no such position); and the concrete morph
"AB\nCD" → "XY\nZW" of duration 600 sampled at progress 1.0 displays
exactly "XY\nZW". -/
theorem C2_morph_frames :
    (∀ (sqrt : ℝ → ℝ) (rand : ℕ → ℕ) (now : ℝ) (st : BannerState ℝ)
        (i : ℕ) (cell : Cell ℝ) (t : ℝ),
      st.morph.active = true →
      st.morph.startTime ≤ now →
      st.morph.duration = 600 →
      st.cells[i]? = some cell →
      st.morph.thresholds[i]? = some t →
      0 < t →
      (min ((now - st.morph.startTime) / st.morph.duration) 1
        = max 0 (min ((now - st.morph.startTime) / st.morph.duration) 1)) ∧
      (min ((now - st.morph.startTime) / st.morph.duration) 1 < 1 →
        ((t ≤ min ((now - st.morph.startTime) / st.morph.duration) 1 →
          ((render sqrt rand now st).cells[i]?).map Cell.char
            = some (targetChar st.morph.toLines cell.row cell.col)) ∧
         (t * 0.3 < min ((now - st.morph.startTime) / st.morph.duration) 1 →
          min ((now - st.morph.startTime) / st.morph.duration) 1 < t →
          ((render sqrt rand now st).cells[i]?).map Cell.char
              = some (glitchAt (rand i)) ∧
            (rand i < 40 → glitchAt (rand i) ∈ GLITCH_CHARS)) ∧
         (min ((now - st.morph.startTime) / st.morph.duration) 1 ≤ t * 0.3 →
          ((render sqrt rand now st).cells[i]?).map Cell.char
            = some (snapChar st.morph.fromSnap i))))) ∧
    (∀ (sqrt : ℝ → ℝ) (rand : ℕ → ℕ) (st : BannerState ℝ) (i : ℕ),
      st.morph.active = true →
      st.morph.duration = 600 →
      st.morph.fromSnap = st.cells →
      st.morph.thresholds = mkThresholds Real.sin st.cells →
      ((render sqrt rand st.morph.startTime st).cells[i]?).map Cell.char
        = (st.cells[i]?).map Cell.char) ∧
    (∀ (sqrt : ℝ → ℝ) (rand : ℕ → ℕ) (now1 : ℝ) (st : BannerState ℝ)
        (i : ℕ) (cell : Cell ℝ),
      st.morph.active = true →
      st.morph.duration = 600 →
      st.morph.onComplete = none →
      st.morph.thresholds = mkThresholds Real.sin st.cells →
      st.morph.startTime + 600 ≤ now1 →
      st.cells[i]? = some cell →
      ((render sqrt rand now1 st).cells[i]?).map Cell.char
        = some (targetChar st.morph.toLines cell.row cell.col)) ∧
    (∀ (cw : ℝ) (sqrt : ℝ → ℝ) (rand : ℕ → ℕ),
      ((step sqrt Real.sin (.frame 600 rand)
          (step sqrt Real.sin (.cycleFire 0)
            (step sqrt Real.sin .initialFire
              (initState cw ["AB\nCD", "XY\nZW"] "AB\nCD")))).cells).map
          (fun c => (c.row, c.col, c.char))
        = [(0, 0, Char.ofNat 88), (0, 1, Char.ofNat 89),
           (1, 0, Char.ofNat 90), (1, 1, Char.ofNat 87)]) := by
  refine ⟨?_, ?_, ?_, ?_⟩
  · intro sqrt rand now st i cell t hact hnow hdur hcell hthr ht
    have hprog0 : (0 : ℝ) ≤ min ((now - st.morph.startTime) / st.morph.duration) 1 :=
      le_min (div_nonneg (by linarith) (by rw [hdur]; norm_num)) zero_le_one
    refine ⟨(max_eq_right hprog0).symm, ?_⟩
    intro hlt1
    have hmid := morphPhase_active_mid rand now st hact (not_le.mpr hlt1)
    have hcells : ((render sqrt rand now st).cells[i]?).map Cell.char
        = some (morphCellChar (st.morph.thresholds[i]?)
            (snapChar st.morph.fromSnap i)
            (targetChar st.morph.toLines cell.row cell.col)
            (glitchAt (rand i))
            (min ((now - st.morph.startTime) / st.morph.duration) 1)) := by
      rw [render_cells, hmid]
      dsimp only
      rw [map_physStep_char, morphCells_getElem, hcell]
      simp
    rw [hthr] at hcells
    refine ⟨?_, ?_, ?_⟩
    · intro hres
      rw [hcells, morphCellChar_resolved _ _ _ hres]
    · intro hg1 hg2
      refine ⟨?_, fun hr => glitchAt_mem hr⟩
      rw [hcells, morphCellChar_glitch _ _ _ (not_le.mpr hg2) hg1]
    · intro hfrom
      rw [hcells, morphCellChar_from _ _ _
        (not_le.mpr (lt_of_le_of_lt hfrom (by linarith))) (not_lt.mpr hfrom)]
  · intro sqrt rand st i hact hdur hsnap hthr
    have hprog : min ((st.morph.startTime - st.morph.startTime) / st.morph.duration) 1
        = 0 := by
      rw [sub_self, zero_div]
      exact min_eq_left zero_le_one
    have hmid := morphPhase_active_mid rand st.morph.startTime st hact
      (by rw [hprog]; norm_num)
    rw [render_cells, hmid]
    dsimp only
    rw [map_physStep_char, morphCells_getElem]
    cases hc : st.cells[i]? with
    | none => simp
    | some c =>
      simp only [Option.map_some']
      rw [hthr, mkThresholds_getElem, hc, hprog]
      simp only [Option.map_some']
      obtain ⟨hl, hu⟩ := thresholdOf_mem c.row c.col
      rw [morphCellChar_from _ _ _ (not_le.mpr (by linarith))
        (not_lt.mpr (by nlinarith))]
      rw [hsnap]
      simp [snapChar, hc]
  · intro sqrt rand now1 st i cell hact hdur hcb hthr hnow hcell
    have hge : (1 : ℝ) ≤ min ((now1 - st.morph.startTime) / st.morph.duration) 1 := by
      rw [hdur]
      refine le_min ?_ le_rfl
      rw [le_div_iff₀ (by norm_num : (0 : ℝ) < 600)]
      linarith
    have hp1 : min ((now1 - st.morph.startTime) / st.morph.duration) 1 = 1 :=
      le_antisymm (min_le_right _ _) hge
    have hdone := morphPhase_active_done rand now1 st hact hge
    have hnone2 : (({ st with
        cells := morphCells rand (min ((now1 - st.morph.startTime) / st.morph.duration) 1) st
        morph := { st.morph with active := false } } : BannerState ℝ)).morph.onComplete
        = none := hcb
    rw [runOnComplete_none _ hnone2] at hdone
    rw [render_cells, hdone]
    dsimp only
    rw [map_physStep_char, morphCells_getElem, hcell]
    simp only [Option.map_some']
    rw [hthr, mkThresholds_getElem, hcell, hp1]
    simp only [Option.map_some']
    obtain ⟨hl, hu⟩ := thresholdOf_mem cell.row cell.col
    rw [morphCellChar_resolved _ _ _ (by linarith)]
  · intro cw sqrt rand
    have hpre : step sqrt Real.sin (.cycleFire 0)
        (step sqrt Real.sin .initialFire
          (initState cw ["AB\nCD", "XY\nZW"] "AB\nCD"))
        = startMorph Real.sin "XY\nZW" (some 1) 0
            ({ scheduleCycle
                { initState cw ["AB\nCD", "XY\nZW"] "AB\nCD" with
                  initialPending := false } with
              cycleTimer := none, isMorphing := true }) := rfl
    have happ := frame_completion_triples sqrt rand 600
      (startMorph Real.sin "XY\nZW" (some 1) 0
        ({ scheduleCycle
            { initState cw ["AB\nCD", "XY\nZW"] "AB\nCD" with
              initialPending := false } with
          cycleTimer := none, isMorphing := true }))
      1 rfl rfl rfl (by
        show (0 : ℝ) + 600 ≤ 600
        norm_num)
    rw [hpre, happ]
    show ((splitLines "XY\nZW").enum.map
        (fun rl => rl.2.enum.map (fun cc => (rl.1, cc.1, cc.2)))).flatten
      = [(0, 0, Char.ofNat 88), (0, 1, Char.ofNat 89),
         (1, 0, Char.ofNat 90), (1, 1, Char.ofNat 87)]
    decide
/-- A concrete mid-morph state over `ℝ`: one cell showing "A", target
"X", threshold 1/2. -/
noncomputable def testRealMorph : BannerState ℝ :=
  { cells := [⟨Char.ofNat 65, 0, 0, 0, 14, 0, 14, 0, 0⟩]
    fontArts := ["A"], charWidth := 1
    morph := { active := true, startTime := 0, duration := 600,
               fromSnap := [⟨Char.ofNat 65, 0, 0, 0, 14, 0, 14, 0, 0⟩],
               toLines := [[Char.ofNat 88]], thresholds := [1 / 2],
               onComplete := none }
    currentTextIndex := 0, nextPause := 2000, cycleTimer := none
    staleTimers := 0, initialPending := false
    isMorphing := true, mouseX := -9999, mouseY := -9999, hovering := false }

/-- The same state with its thresholds installed by the wave formula, as
`startMorph` would. -/
noncomputable def testRealMorph2 : BannerState ℝ :=
  { testRealMorph with
    morph := { testRealMorph.morph with
      thresholds := mkThresholds Real.sin testRealMorph.cells } }

/-- C2 witness: at progress 1/2 ≥ threshold 1/2 the cell shows the target
"X"; a frame at the exact start time leaves the glyph at its pre-morph
value; and the concrete pipeline "AB\nCD" → "XY\nZW" sampled at
progress 1.0 displays exactly "XY\nZW". -/
theorem C2_morph_frames_witness :
    ((render Real.sqrt (fun _ => 0) 300 testRealMorph).cells[(0 : ℕ)]?).map Cell.char
      = some (Char.ofNat 88) ∧
    ((render Real.sqrt (fun _ => 0) testRealMorph2.morph.startTime
        testRealMorph2).cells[(0 : ℕ)]?).map Cell.char
      = (testRealMorph2.cells[(0 : ℕ)]?).map Cell.char ∧
    ((step Real.sqrt Real.sin (.frame 600 (fun _ => 0))
        (step Real.sqrt Real.sin (.cycleFire 0)
          (step Real.sqrt Real.sin .initialFire
            (initState (1 : ℝ) ["AB\nCD", "XY\nZW"] "AB\nCD")))).cells).map
        (fun c => (c.row, c.col, c.char))
      = [(0, 0, Char.ofNat 88), (0, 1, Char.ofNat 89),
         (1, 0, Char.ofNat 90), (1, 1, Char.ofNat 87)] := by
  obtain ⟨hA, hB, _, hD⟩ := C2_morph_frames
  refine ⟨?_, ?_, ?_⟩
  · have hnow : testRealMorph.morph.startTime ≤ (300 : ℝ) := by
      show (0 : ℝ) ≤ 300
      norm_num
    have hlt1 : min ((300 - testRealMorph.morph.startTime) /
        testRealMorph.morph.duration) 1 < 1 := by
      show min ((300 - (0 : ℝ)) / 600) 1 < 1
      norm_num [min_def]
    have hres : (1 / 2 : ℝ) ≤ min ((300 - testRealMorph.morph.startTime) /
        testRealMorph.morph.duration) 1 := by
      show (1 / 2 : ℝ) ≤ min ((300 - (0 : ℝ)) / 600) 1
      norm_num [min_def]
    have h := (hA Real.sqrt (fun _ => 0) 300 testRealMorph 0
        ⟨Char.ofNat 65, 0, 0, 0, 14, 0, 14, 0, 0⟩ (1 / 2) rfl
        hnow rfl rfl rfl (by norm_num)).2 hlt1
    exact (h.1 hres).trans rfl
  · exact hB Real.sqrt (fun _ => 0) testRealMorph2 0 rfl rfl rfl rfl
  · exact hD 1 Real.sqrt (fun _ => 0)

end AsciiBanner
